import Mathlib

/-!
Shallow embedding of `src/stock_predictor.py` (an RSI-based stock screener).

The numeric model uses exact rationals in place of IEEE doubles.  A value
that the Python/pandas code would hold as NaN is modelled by the explicit
constructor `RVal.undef`; the float comparisons of the code (where every
comparison with NaN is false) are modelled by `RVal.gtQ`.  The pandas
behaviour that matters here and is embedded faithfully:

* `Series.diff` puts NaN at index 0;
* `delta.where(delta > 0, 0)` replaces every entry whose comparison is
  false by 0 — including the NaN at index 0, whose comparison with 0 is
  false, so the first (undefined) delta is coerced to a numeric 0;
* `rolling(window=w).mean()` is defined (with `min_periods` defaulting to
  the window size) exactly at indices `i` with `w ≤ i + 1`, i.e. from
  index `w - 1` on;
* float division `g / l` yields NaN when `g = l = 0` and `+inf` when
  `l = 0 < g`, in which case `100 - 100 / (1 + rs)` collapses to `100`.
-/

/-- A model of a double that may be NaN: `undef` is NaN, `val q` is the
numeric value `q`. -/
inductive RVal where
  | undef : RVal
  | val : ℚ → RVal
deriving DecidableEq, Repr

namespace RVal

/-- Python float comparison `x > t`: false whenever `x` is NaN. -/
def gtQ : RVal → ℚ → Bool
  | undef, _ => false
  | val q, t => decide (t < q)

/-- Extract the numeric value, with a default for NaN. -/
def getD : RVal → ℚ → ℚ
  | undef, d => d
  | val q, _ => q

end RVal

/-- Python `round(x, 2)` on exact rationals: round half to even at the
second decimal place. -/
def round2 (q : ℚ) : ℚ :=
  let x : ℚ := q * 100
  let n : ℤ := ⌊x⌋
  let f : ℚ := x - n
  let r : ℤ :=
    if f < 1 / 2 then n
    else if 1 / 2 < f then n + 1
    else if 2 ∣ n then n else n + 1
  (r : ℚ) / 100

/-- `round(·, 2)` applied to a possibly-NaN value (`round` keeps NaN). -/
def round2R : RVal → RVal
  | RVal.undef => RVal.undef
  | RVal.val q => RVal.val (round2 q)

/-- Gain series of `calculate_rsi`: `delta.where(delta > 0, 0)` with
`delta = data['Close'].diff()`.  At index 0 the NaN delta compares false
and is coerced to 0; at `i ≥ 1` the entry is `max (close[i] - close[i-1]) 0`. -/
def gainAt (c : List ℚ) (i : ℕ) : ℚ :=
  if i = 0 then 0 else max (c.getD i 0 - c.getD (i - 1) 0) 0

/-- Loss series of `calculate_rsi`: `-delta.where(delta < 0, 0)`, i.e.
`max (close[i-1] - close[i]) 0`, with the index-0 NaN coerced to 0. -/
def lossAt (c : List ℚ) (i : ℕ) : ℚ :=
  if i = 0 then 0 else max (c.getD (i - 1) 0 - c.getD i 0) 0

/-- `rolling(window=w).mean()` of the gain series: defined exactly when a
full window of `w` observations ending at `i` exists inside the series. -/
def avgGain (c : List ℚ) (w i : ℕ) : Option ℚ :=
  if w ≤ i + 1 ∧ i < c.length then
    some ((∑ j in Finset.range w, gainAt c (i - j)) / w)
  else none

/-- `rolling(window=w).mean()` of the loss series. -/
def avgLoss (c : List ℚ) (w i : ℕ) : Option ℚ :=
  if w ≤ i + 1 ∧ i < c.length then
    some ((∑ j in Finset.range w, lossAt c (i - j)) / w)
  else none

/-- One entry of the series returned by `calculate_rsi`:
`rs = gain / loss`, `rsi = 100 - 100 / (1 + rs)`, with float semantics of
the division: `0 / 0` is NaN (hence RSI is NaN), `g / 0` with `g ≠ 0` is
infinite (hence RSI collapses to 100). -/
def rsiAt (c : List ℚ) (w i : ℕ) : RVal :=
  match avgGain c w i, avgLoss c w i with
  | some g, some l =>
      if l ≠ 0 then RVal.val (100 - 100 / (1 + g / l))
      else if g ≠ 0 then RVal.val 100
      else RVal.undef
  | _, _ => RVal.undef

/-- The series returned by `calculate_rsi(data, window)`: one entry per
index of the closing-price series. -/
def calculate_rsi (c : List ℚ) (w : ℕ) : List RVal :=
  (List.range c.length).map (rsiAt c w)

/-- One daily bar of the fetched series; only the fields the evaluator
reads are modelled. -/
structure Bar where
  close : ℚ
  volume : ℚ
deriving DecidableEq, Repr

/-- The 6-tuple returned by `evaluate_stock`. -/
structure EvalResult where
  symbol : String
  price : Option ℚ
  rsi : Option RVal
  priceUp : Option Bool
  volumeUp : Option Bool
  verdict : String
deriving DecidableEq, Repr

def strongBuyVerdict : String := "Strong Buy"

def notStrongBuyVerdict : String := "Not a strong buy"

def insufficientDataVerdict : String := "Skipped – insufficient data"

def fetchErrorVerdict (e : String) : String :=
  "Skipped – error fetching data (" ++ e ++ ")"

def skippedTag : String := "Skipped"

/-- `evaluate_stock(symbol, rsi_threshold)`.  The outcome of
`yf.download` (either the fetched bars or a raised exception message) is
passed in as an `Except`, since the provider is an external collaborator;
the `except` clause of the source corresponds to the `Except.error` case. -/
def evaluate_stock (symbol : String) (rsi_threshold : ℚ)
    (fetched : Except String (List Bar)) : EvalResult :=
  match fetched with
  | Except.error e =>
      ⟨symbol, none, none, none, none, fetchErrorVerdict e⟩
  | Except.ok bars =>
      if bars.isEmpty || bars.length < 15 then
        ⟨symbol, none, none, none, none, insufficientDataVerdict⟩
      else
        let closes := bars.map Bar.close
        let n := bars.length
        let rsiToday := (calculate_rsi closes 14).getD (n - 1) RVal.undef
        let priceToday := closes.getD (n - 1) 0
        let priceYesterday := closes.getD (n - 2) 0
        let volumeToday := (bars.map Bar.volume).getD (n - 1) 0
        let volumeYesterday := (bars.map Bar.volume).getD (n - 2) 0
        let priceUp : Bool := decide (priceYesterday < priceToday)
        let volumeUp : Bool := decide (volumeYesterday < volumeToday)
        let verdict :=
          if rsiToday.gtQ rsi_threshold && priceUp && volumeUp then
            strongBuyVerdict
          else notStrongBuyVerdict
        ⟨symbol, some (round2 priceToday), some (round2R rsiToday),
          some priceUp, some volumeUp, verdict⟩

/-- The per-symbol loop of `main`: each symbol is evaluated on its own
fetch outcome, results in input order. -/
def runAll (symbols : List String) (t : ℚ)
    (fetch : String → Except String (List Bar)) : List EvalResult :=
  symbols.map fun s => evaluate_stock s t (fetch s)

/-- Python `s.startswith(pre)`, modelled on the character lists of the
two strings. -/
def startsWithModel (s pre : String) : Bool :=
  pre.data.isPrefixOf s.data

/-- One record appended to `strong_buy_data` in `main`:
`{"Symbol": symbol, "Price": price, "RSI": rsi}`. -/
structure Row where
  symbol : String
  price : ℚ
  rsi : ℚ
deriving DecidableEq, Repr

/-- The record built from an evaluation result inside the loop of `main`
(only built when the verdict is a strong buy, in which case the price and
RSI fields are present numeric values). -/
def mkRow (r : EvalResult) : Row :=
  ⟨r.symbol, (r.price.getD 0), (r.rsi.getD RVal.undef).getD 0⟩

/-- The accumulation loop of `main` over the evaluation results: skipped
verdicts show a warning, and a row is appended exactly when the verdict
equals "Strong Buy"; rows keep the evaluation (input-symbol) order. -/
def collectStrongBuys (results : List EvalResult) : List Row :=
  results.foldl
    (fun acc r =>
      if startsWithModel r.verdict skippedTag then acc
      else if r.verdict = strongBuyVerdict then acc ++ [mkRow r]
      else acc)
    []

def csvHeader : String := "Symbol,Price,RSI\n"

/-- Modelled from the spec: one CSV data row of the exported artifact,
`Symbol,Price,RSI` fields comma-separated (the pandas rendering of the
numbers is out of scope; the exact rational is printed). -/
def rowLine (row : Row) : String :=
  row.symbol ++ "," ++ toString row.price ++ "," ++ toString row.rsi ++ "\n"

/-- Modelled from the spec: `DataFrame.to_csv(index=False)` on the
strong-buy records — the header line `Symbol,Price,RSI` followed by one
data row per record in order, with no index column (the serialization
mechanics are an external collaborator in the spec). -/
def toCsv (rows : List Row) : String :=
  csvHeader ++ String.join (rows.map rowLine)

/-! ### Concrete inputs used by witnesses and counterexamples -/

/-- 15 bars with strictly increasing closes and volumes. -/
def goodBars : List Bar :=
  [⟨1, 1⟩, ⟨2, 2⟩, ⟨3, 3⟩, ⟨4, 4⟩, ⟨5, 5⟩, ⟨6, 6⟩, ⟨7, 7⟩, ⟨8, 8⟩,
   ⟨9, 9⟩, ⟨10, 10⟩, ⟨11, 11⟩, ⟨12, 12⟩, ⟨13, 13⟩, ⟨14, 14⟩, ⟨15, 15⟩]

/-- 15 bars with a flat closing price of 100 and increasing volume. -/
def flatBars : List Bar :=
  [⟨100, 1⟩, ⟨100, 2⟩, ⟨100, 3⟩, ⟨100, 4⟩, ⟨100, 5⟩, ⟨100, 6⟩, ⟨100, 7⟩,
   ⟨100, 8⟩, ⟨100, 9⟩, ⟨100, 10⟩, ⟨100, 11⟩, ⟨100, 12⟩, ⟨100, 13⟩,
   ⟨100, 14⟩, ⟨100, 15⟩]

/-- A flat closing-price series of 15 entries. -/
def cflat : List ℚ := [5, 5, 5, 5, 5, 5, 5, 5, 5, 5, 5, 5, 5, 5, 5]

/-- A strictly decreasing closing-price series of exactly 14 entries. -/
def cdec14 : List ℚ := [14, 13, 12, 11, 10, 9, 8, 7, 6, 5, 4, 3, 2, 1]

/-- A short strictly increasing closing-price series. -/
def cinc3 : List ℚ := [1, 2, 3]

/-- 15 bars engineered so that the unrounded last RSI is 50.001: one
loss of 49999 followed by twelve flat days and one gain of 50001, with
increasing volume. -/
def c10bars : List Bar :=
  [⟨100000, 1⟩, ⟨50001, 2⟩, ⟨50001, 3⟩, ⟨50001, 4⟩, ⟨50001, 5⟩,
   ⟨50001, 6⟩, ⟨50001, 7⟩, ⟨50001, 8⟩, ⟨50001, 9⟩, ⟨50001, 10⟩,
   ⟨50001, 11⟩, ⟨50001, 12⟩, ⟨50001, 13⟩, ⟨50001, 14⟩, ⟨100002, 15⟩]

/-- A sample batch of evaluation results with mixed verdicts. -/
def resultsSample : List EvalResult :=
  [⟨"AAA", some 100, some (RVal.val 60), some true, some true, strongBuyVerdict⟩,
   ⟨"SKP", none, none, none, none, insufficientDataVerdict⟩,
   ⟨"CCC", some 7, some (RVal.val 40), some false, some true, notStrongBuyVerdict⟩,
   ⟨"BBB", some (101 / 2), some (RVal.val (221 / 4)), some true, some true,
     strongBuyVerdict⟩]

/-- A fetch function that fails on every symbol. -/
def fetchAllFail : String → Except String (List Bar) :=
  fun _ => Except.error "connection reset"

/-- A fetch function that fails on AAA and succeeds elsewhere. -/
def fetchOneFail : String → Except String (List Bar) :=
  fun s => if s = "AAA" then Except.error "connection reset" else Except.ok []

/-! ### Helper lemmas -/

lemma RVal.gtQ_eq_true_iff (x : RVal) (t : ℚ) :
    x.gtQ t = true ↔ ∃ q, x = RVal.val q ∧ t < q := by
  cases x with
  | undef => simp [RVal.gtQ]
  | val q => simp [RVal.gtQ]

lemma gainAt_nonneg (c : List ℚ) (i : ℕ) : 0 ≤ gainAt c i := by
  unfold gainAt
  split
  · exact le_refl 0
  · exact le_max_right _ _

lemma lossAt_nonneg (c : List ℚ) (i : ℕ) : 0 ≤ lossAt c i := by
  unfold lossAt
  split
  · exact le_refl 0
  · exact le_max_right _ _

lemma avgGain_nonneg (c : List ℚ) (w i : ℕ) (g : ℚ)
    (h : avgGain c w i = some g) : 0 ≤ g := by
  unfold avgGain at h
  split at h
  · cases h
    exact div_nonneg (Finset.sum_nonneg fun j _ => gainAt_nonneg c (i - j))
      (Nat.cast_nonneg w)
  · cases h

lemma avgLoss_nonneg (c : List ℚ) (w i : ℕ) (l : ℚ)
    (h : avgLoss c w i = some l) : 0 ≤ l := by
  unfold avgLoss at h
  split at h
  · cases h
    exact div_nonneg (Finset.sum_nonneg fun j _ => lossAt_nonneg c (i - j))
      (Nat.cast_nonneg w)
  · cases h

lemma rsiAt_eq (c : List ℚ) (w i : ℕ) (g l : ℚ)
    (hG : avgGain c w i = some g) (hL : avgLoss c w i = some l) :
    rsiAt c w i =
      if l ≠ 0 then RVal.val (100 - 100 / (1 + g / l))
      else if g ≠ 0 then RVal.val 100
      else RVal.undef := by
  unfold rsiAt
  rw [hG, hL]

lemma calculate_rsi_getD (c : List ℚ) (w i : ℕ) (hi : i < c.length) :
    (calculate_rsi c w).getD i RVal.undef = rsiAt c w i := by
  unfold calculate_rsi
  rw [List.getD_eq_getElem?_getD, List.getElem?_map, List.getElem?_range hi]
  rfl

/-- Normal form of `evaluate_stock` on a successfully fetched series with
at least the minimum number of bars. -/
lemma evaluate_ok_of_min_bars (s : String) (t : ℚ) (bars : List Bar)
    (h : 15 ≤ bars.length) :
    evaluate_stock s t (Except.ok bars) =
      ⟨s,
        some (round2 ((bars.map Bar.close).getD (bars.length - 1) 0)),
        some (round2R (rsiAt (bars.map Bar.close) 14 (bars.length - 1))),
        some (decide ((bars.map Bar.close).getD (bars.length - 2) 0 <
          (bars.map Bar.close).getD (bars.length - 1) 0)),
        some (decide ((bars.map Bar.volume).getD (bars.length - 2) 0 <
          (bars.map Bar.volume).getD (bars.length - 1) 0)),
        if (rsiAt (bars.map Bar.close) 14 (bars.length - 1)).gtQ t
            && decide ((bars.map Bar.close).getD (bars.length - 2) 0 <
              (bars.map Bar.close).getD (bars.length - 1) 0)
            && decide ((bars.map Bar.volume).getD (bars.length - 2) 0 <
              (bars.map Bar.volume).getD (bars.length - 1) 0) then
          strongBuyVerdict
        else notStrongBuyVerdict⟩ := by
  have hne : bars.isEmpty = false := by
    cases bars with
    | nil => simp at h
    | cons a l => rfl
  have hlt : ¬ bars.length < 15 := not_lt.mpr h
  have hcalc := calculate_rsi_getD (bars.map Bar.close) 14 (bars.length - 1)
    (by rw [List.length_map]; omega)
  simp only [List.getD_eq_getElem?_getD] at hcalc
  simp [evaluate_stock, hne, hlt, hcalc]

/-! ### Claim theorems -/

/-- C5: with an empty fetched series or fewer than 15 bars,
`evaluate_stock` returns the insufficient-data skip verdict and no
price, RSI or direction flags, for every symbol and threshold. -/
theorem evaluate_insufficient_bars (s : String) (t : ℚ) (bars : List Bar)
    (h : bars.length < 15) :
    evaluate_stock s t (Except.ok bars) =
      ⟨s, none, none, none, none, insufficientDataVerdict⟩ := by
  simp [evaluate_stock, h]

/-- C5 witness: the empty series is skipped for insufficient data. -/
theorem evaluate_insufficient_bars_witness :
    evaluate_stock "RELIANCE.NS" 50 (Except.ok []) =
      ⟨"RELIANCE.NS", none, none, none, none, insufficientDataVerdict⟩ :=
  evaluate_insufficient_bars "RELIANCE.NS" 50 [] (by decide)

/-- C1: for a fetched series with at least 15 bars, the verdict is
"Strong Buy" exactly when the unrounded last RSI is strictly above the
threshold, the last close is strictly above the previous close, and the
last volume is strictly above the previous volume; in every other case
(NaN RSI included, since a float comparison with NaN is false; equal
prices or volumes included) the verdict is "Not a strong buy". -/
theorem evaluate_verdict_rule (s : String) (t : ℚ) (bars : List Bar)
    (h : 15 ≤ bars.length) :
    ((evaluate_stock s t (Except.ok bars)).verdict = strongBuyVerdict ↔
      (∃ q, rsiAt (bars.map Bar.close) 14 (bars.length - 1) = RVal.val q ∧ t < q) ∧
      (bars.map Bar.close).getD (bars.length - 2) 0 <
        (bars.map Bar.close).getD (bars.length - 1) 0 ∧
      (bars.map Bar.volume).getD (bars.length - 2) 0 <
        (bars.map Bar.volume).getD (bars.length - 1) 0) ∧
    ((evaluate_stock s t (Except.ok bars)).verdict = strongBuyVerdict ∨
      (evaluate_stock s t (Except.ok bars)).verdict = notStrongBuyVerdict) := by
  rw [evaluate_ok_of_min_bars s t bars h]
  dsimp only
  by_cases hC : ((rsiAt (bars.map Bar.close) 14 (bars.length - 1)).gtQ t
      && decide ((bars.map Bar.close).getD (bars.length - 2) 0 <
        (bars.map Bar.close).getD (bars.length - 1) 0)
      && decide ((bars.map Bar.volume).getD (bars.length - 2) 0 <
        (bars.map Bar.volume).getD (bars.length - 1) 0)) = true
  · have hP := hC
    simp only [Bool.and_eq_true, decide_eq_true_eq, RVal.gtQ_eq_true_iff] at hP
    rw [if_pos hC]
    exact ⟨⟨fun _ => ⟨hP.1.1, hP.1.2, hP.2⟩, fun _ => rfl⟩, Or.inl rfl⟩
  · rw [if_neg hC]
    refine ⟨⟨fun hv => absurd hv (by decide), fun hp => ?_⟩, Or.inr rfl⟩
    have : ((rsiAt (bars.map Bar.close) 14 (bars.length - 1)).gtQ t
        && decide ((bars.map Bar.close).getD (bars.length - 2) 0 <
          (bars.map Bar.close).getD (bars.length - 1) 0)
        && decide ((bars.map Bar.volume).getD (bars.length - 2) 0 <
          (bars.map Bar.volume).getD (bars.length - 1) 0)) = true := by
      simp only [Bool.and_eq_true, decide_eq_true_eq, RVal.gtQ_eq_true_iff]
      exact ⟨⟨hp.1, hp.2.1⟩, hp.2.2⟩
    exact absurd this hC

/-- C1 witness: on 15 strictly increasing bars with threshold 50 the
rule fires and the verdict is "Strong Buy". -/
theorem evaluate_verdict_rule_witness :
    (evaluate_stock "TCS.NS" 50 (Except.ok goodBars)).verdict = strongBuyVerdict :=
  (evaluate_verdict_rule "TCS.NS" 50 goodBars (by decide)).1.mpr
    ⟨⟨100, by
        norm_num [goodBars, rsiAt, avgGain, avgLoss, gainAt, lossAt,
          Finset.sum_range_succ, List.getD], by norm_num⟩,
      by norm_num [goodBars, List.getD],
      by norm_num [goodBars, List.getD]⟩

/-- C2: on a flat closing-price series both rolling averages are 0
wherever defined, the ratio is 0/0, and the RSI entry is the undefined
marker (NaN) at every index, for every window. -/
theorem rsi_flat_undefined (c : List ℚ) (v : ℚ) (w i : ℕ)
    (h : ∀ x ∈ c, x = v) :
    rsiAt c w i = RVal.undef := by
  have hflat : ∀ j, j < c.length → c.getD j 0 = v := by
    intro j hj
    rw [List.getD_eq_getElem?_getD, List.getElem?_eq_getElem hj]
    exact h _ (List.getElem_mem hj)
  have hgain : ∀ j, j < c.length → gainAt c j = 0 := by
    intro j hj
    unfold gainAt
    rcases Nat.eq_zero_or_pos j with h0 | hpos
    · simp [h0]
    · have hj1 : j - 1 < c.length := lt_of_le_of_lt (Nat.pred_le j) hj
      rw [if_neg (Nat.pos_iff_ne_zero.mp hpos), hflat j hj, hflat (j - 1) hj1]
      simp
  have hloss : ∀ j, j < c.length → lossAt c j = 0 := by
    intro j hj
    unfold lossAt
    rcases Nat.eq_zero_or_pos j with h0 | hpos
    · simp [h0]
    · have hj1 : j - 1 < c.length := lt_of_le_of_lt (Nat.pred_le j) hj
      rw [if_neg (Nat.pos_iff_ne_zero.mp hpos), hflat j hj, hflat (j - 1) hj1]
      simp
  by_cases hg : w ≤ i + 1 ∧ i < c.length
  · have hsumg : (∑ j in Finset.range w, gainAt c (i - j)) = 0 :=
      Finset.sum_eq_zero fun j _ => hgain _ (lt_of_le_of_lt (Nat.sub_le i j) hg.2)
    have hsuml : (∑ j in Finset.range w, lossAt c (i - j)) = 0 :=
      Finset.sum_eq_zero fun j _ => hloss _ (lt_of_le_of_lt (Nat.sub_le i j) hg.2)
    simp [rsiAt, avgGain, avgLoss, hg, hsumg, hsuml]
  · simp [rsiAt, avgGain, avgLoss, hg]

/-- C2 witness: the flat 15-entry series has NaN RSI at the last index. -/
theorem rsi_flat_undefined_witness : rsiAt cflat 14 14 = RVal.undef :=
  rsi_flat_undefined cflat 5 14 14 (by norm_num [cflat])

/-- C3 counterexample: a 15-bar flat-price series passes the
minimum-bars check and has an undefined (NaN) last RSI, yet
`evaluate_stock` returns the "Not a strong buy" verdict, not the
insufficient-data skip. -/
theorem evaluate_flat_not_skipped :
    (evaluate_stock "AAA" 50 (Except.ok flatBars)).verdict = notStrongBuyVerdict ∧
    (evaluate_stock "AAA" 50 (Except.ok flatBars)).verdict ≠ insufficientDataVerdict ∧
    rsiAt (flatBars.map Bar.close) 14 (flatBars.length - 1) = RVal.undef := by
  have hr : rsiAt (flatBars.map Bar.close) 14 (flatBars.length - 1) = RVal.undef :=
    rsi_flat_undefined (flatBars.map Bar.close) 100 14 (flatBars.length - 1)
      (by norm_num [flatBars])
  have he := evaluate_ok_of_min_bars "AAA" 50 flatBars (by decide)
  refine ⟨?_, ?_, hr⟩
  · rw [he]
    dsimp only
    rw [hr]
    simp [RVal.gtQ]
  · rw [he]
    dsimp only
    rw [hr]
    simp [RVal.gtQ, notStrongBuyVerdict, insufficientDataVerdict]

/-- C3 amended: when the series passes the 15-bar check but the last RSI
value is undefined (NaN), `evaluate_stock` returns the "Not a strong buy"
verdict (the NaN threshold comparison is false) and a NaN RSI field — it
does not return the insufficient-data skip. -/
theorem evaluate_undefined_rsi_not_strong_buy (s : String) (t : ℚ)
    (bars : List Bar) (h : 15 ≤ bars.length)
    (hu : rsiAt (bars.map Bar.close) 14 (bars.length - 1) = RVal.undef) :
    (evaluate_stock s t (Except.ok bars)).verdict = notStrongBuyVerdict ∧
    (evaluate_stock s t (Except.ok bars)).rsi = some RVal.undef := by
  rw [evaluate_ok_of_min_bars s t bars h]
  dsimp only
  rw [hu]
  exact ⟨by simp [RVal.gtQ], rfl⟩

/-- C3 amended witness: the flat 15-bar series is classified
"Not a strong buy" with a NaN RSI field. -/
theorem evaluate_undefined_rsi_not_strong_buy_witness :
    (evaluate_stock "AAA" 50 (Except.ok flatBars)).rsi = some RVal.undef :=
  (evaluate_undefined_rsi_not_strong_buy "AAA" 50 flatBars (by decide)
    (rsi_flat_undefined (flatBars.map Bar.close) 100 14 (flatBars.length - 1)
      (by norm_num [flatBars]))).2

/-- C4 counterexample: on a strictly decreasing 14-entry series with
window 14, the rolling averages and the RSI are already defined at index
13 = window − 1 (the claim says they are undefined there): pandas coerced
the undefined first delta to 0, so a full window exists at index 13. -/
theorem avg_defined_at_window_minus_one :
    (avgGain cdec14 14 13).isSome = true ∧
    avgGain cdec14 14 13 = some 0 ∧
    rsiAt cdec14 14 13 = RVal.val 0 := by
  norm_num [cdec14, rsiAt, avgGain, avgLoss, gainAt, lossAt,
    Finset.sum_range_succ, List.getD]

/-- C4 amended: the trailing averages at index `i` are defined exactly
when a full window of `w` observations of the coerced gain/loss series
ends at `i` inside the series, i.e. when `w ≤ i + 1` and `i < length` —
one real delta fewer than the claim states, because the undefined delta
at index 0 is coerced to 0; below `w − 1` (or outside the series) the
averages and the RSI are undefined. -/
theorem avg_rsi_defined_iff (c : List ℚ) (w i : ℕ) :
    ((avgGain c w i).isSome = true ↔ w ≤ i + 1 ∧ i < c.length) ∧
    ((avgLoss c w i).isSome = true ↔ w ≤ i + 1 ∧ i < c.length) ∧
    (i + 1 < w ∨ c.length ≤ i → rsiAt c w i = RVal.undef) := by
  by_cases hg : w ≤ i + 1 ∧ i < c.length
  · refine ⟨by simp [avgGain, hg], by simp [avgLoss, hg], ?_⟩
    intro hcase
    rcases hcase with h1 | h2
    · exact absurd hg.1 (by omega)
    · exact absurd hg.2 (by omega)
  · refine ⟨by simp [avgGain, hg], by simp [avgLoss, hg], ?_⟩
    intro _
    simp [rsiAt, avgGain, avgLoss, hg]

/-- C4 amended witness: with window 14 the average is defined at index 13
of a 14-entry series, and the RSI at index 5 is undefined. -/
theorem avg_rsi_defined_iff_witness :
    (avgGain cdec14 14 13).isSome = true ∧ rsiAt cdec14 14 5 = RVal.undef :=
  ⟨(avg_rsi_defined_iff cdec14 14 13).1.mpr (by decide),
    (avg_rsi_defined_iff cdec14 14 5).2.2 (Or.inl (by decide))⟩

/-- C6: a fetch error is folded into a skip verdict that embeds the
error description verbatim; `evaluate_stock` is a total function, and
each entry of the run depends only on its own symbol's fetch outcome, so
one failing symbol never changes any other result. -/
theorem evaluate_error_isolated (s : String) (t : ℚ) (e : String) :
    evaluate_stock s t (Except.error e) =
      ⟨s, none, none, none, none, fetchErrorVerdict e⟩ ∧
    (∃ pre post, (evaluate_stock s t (Except.error e)).verdict = pre ++ e ++ post) ∧
    (∀ symbols fetch fetch₂, (∀ x ∈ symbols, fetch x = fetch₂ x) →
      runAll symbols t fetch = runAll symbols t fetch₂) := by
  refine ⟨rfl, ⟨"Skipped – error fetching data (", ")", rfl⟩, ?_⟩
  intro symbols fetch fetch₂ hagree
  unfold runAll
  exact List.map_congr_left fun x hx => by rw [hagree x hx]

/-- C6 witness: a concrete fetch error yields the error-preserving skip
verdict, and two fetch functions that agree on the listed symbol give
identical runs. -/
theorem evaluate_error_isolated_witness :
    (evaluate_stock "AAA" 50 (Except.error "connection reset")).verdict =
      fetchErrorVerdict "connection reset" ∧
    runAll ["AAA"] 50 fetchAllFail = runAll ["AAA"] 50 fetchOneFail := by
  have h := evaluate_error_isolated "AAA" 50 "connection reset"
  refine ⟨by rw [h.1], h.2.2 ["AAA"] fetchAllFail fetchOneFail ?_⟩
  intro x hx
  simp only [List.mem_singleton] at hx
  subst hx
  simp [fetchAllFail, fetchOneFail]

/-- C7: whenever the RSI entry is a numeric value it lies in [0, 100]
(for series of at least window + 1 points, as the claim is stated). -/
theorem rsi_bounded (c : List ℚ) (w i : ℕ) (q : ℚ)
    (hlen : w + 1 ≤ c.length) (h : rsiAt c w i = RVal.val q) :
    0 ≤ q ∧ q ≤ 100 := by
  by_cases hg : w ≤ i + 1 ∧ i < c.length
  · have hG : avgGain c w i = some ((∑ j in Finset.range w, gainAt c (i - j)) / w) := by
      simp [avgGain, hg]
    have hL : avgLoss c w i = some ((∑ j in Finset.range w, lossAt c (i - j)) / w) := by
      simp [avgLoss, hg]
    set g := (∑ j in Finset.range w, gainAt c (i - j)) / (w : ℚ) with hgdef
    set l := (∑ j in Finset.range w, lossAt c (i - j)) / (w : ℚ) with hldef
    have hg0 : 0 ≤ g := avgGain_nonneg c w i g hG
    have hl0 : 0 ≤ l := avgLoss_nonneg c w i l hL
    rw [rsiAt_eq c w i g l hG hL] at h
    by_cases hl : l = 0
    · rw [if_neg (not_not_intro hl)] at h
      by_cases hgz : g = 0
      · rw [if_neg (not_not_intro hgz)] at h
        exact RVal.noConfusion h
      · rw [if_pos hgz] at h
        injection h with hq
        subst hq
        norm_num
    · rw [if_pos hl] at h
      injection h with hq
      subst hq
      have hlpos : 0 < l := lt_of_le_of_ne hl0 (Ne.symm hl)
      have hrs : 0 ≤ g / l := div_nonneg hg0 hl0
      have hd : (1 : ℚ) ≤ 1 + g / l := by linarith
      have hpos : 0 < 100 / (1 + g / l) := div_pos (by norm_num) (by linarith)
      have hle : 100 / (1 + g / l) ≤ 100 := by
        rw [div_le_iff₀ (by linarith)]
        nlinarith
      constructor
      · linarith
      · linarith
  · simp [rsiAt, avgGain, avgLoss, hg] at h

/-- C7 witness: the strictly rising 15-bar series has RSI exactly 100 at
the last index, and 100 lies in [0, 100]. -/
theorem rsi_bounded_witness :
    rsiAt (goodBars.map Bar.close) 14 14 = RVal.val 100 ∧
    0 ≤ (100 : ℚ) ∧ (100 : ℚ) ≤ 100 := by
  have hr : rsiAt (goodBars.map Bar.close) 14 14 = RVal.val 100 := by
    norm_num [goodBars, rsiAt, avgGain, avgLoss, gainAt, lossAt,
      Finset.sum_range_succ, List.getD]
  exact ⟨hr, rsi_bounded (goodBars.map Bar.close) 14 14 100 (by decide) hr⟩

/-- C8: on a strictly increasing closing-price series, wherever the
trailing averages are defined the loss average is 0 and the gain average
is positive, and the RSI entry saturates to exactly 100 (window at least
2; with window 1 the first average would consist of the coerced zero
alone). -/
theorem rsi_strictly_increasing_saturates (c : List ℚ) (w : ℕ) (hw : 2 ≤ w)
    (hmono : ∀ i, i + 1 < c.length → c.getD i 0 < c.getD (i + 1) 0) :
    ∀ i, (avgGain c w i).isSome = true →
      avgLoss c w i = some 0 ∧
      (∃ g, avgGain c w i = some g ∧ 0 < g) ∧
      rsiAt c w i = RVal.val 100 := by
  intro i hsome
  have hg : w ≤ i + 1 ∧ i < c.length := by
    by_contra hcon
    simp [avgGain, hcon] at hsome
  have hloss : ∀ j, j < c.length → lossAt c j = 0 := by
    intro j hj
    unfold lossAt
    rcases Nat.eq_zero_or_pos j with h0 | hpos
    · simp [h0]
    · have hj1 : j - 1 + 1 = j := Nat.succ_pred_eq_of_pos hpos
      have hlt : c.getD (j - 1) 0 < c.getD j 0 := by
        have hm := hmono (j - 1) (by omega)
        rwa [hj1] at hm
      rw [if_neg (Nat.pos_iff_ne_zero.mp hpos)]
      exact max_eq_right (by linarith)
  have hLsum : (∑ j in Finset.range w, lossAt c (i - j)) = 0 :=
    Finset.sum_eq_zero fun j _ => hloss _ (lt_of_le_of_lt (Nat.sub_le i j) hg.2)
  have hL : avgLoss c w i = some 0 := by simp [avgLoss, hg, hLsum]
  obtain ⟨hgw, hglen⟩ := hg
  have hi1 : 1 ≤ i := by omega
  have hieq : i - 1 + 1 = i := Nat.sub_add_cancel hi1
  have hgain_i : 0 < gainAt c i := by
    unfold gainAt
    rw [if_neg (by omega : ¬ i = 0)]
    have hlt : c.getD (i - 1) 0 < c.getD i 0 := by
      have hm := hmono (i - 1) (by rw [hieq]; exact hglen)
      rwa [hieq] at hm
    have hdiff : 0 < c.getD i 0 - c.getD (i - 1) 0 := by linarith
    exact lt_of_lt_of_le hdiff (le_max_left _ _)
  have hsum_pos : 0 < (∑ j in Finset.range w, gainAt c (i - j)) := by
    apply Finset.sum_pos'
    · exact fun j _ => gainAt_nonneg c (i - j)
    · exact ⟨0, Finset.mem_range.mpr (by omega), by simpa using hgain_i⟩
  have hG : avgGain c w i =
      some ((∑ j in Finset.range w, gainAt c (i - j)) / w) := by
    simp [avgGain, hgw, hglen]
  have hwq : (0 : ℚ) < w := by exact_mod_cast (by omega : 0 < w)
  have hgpos : 0 < (∑ j in Finset.range w, gainAt c (i - j)) / (w : ℚ) :=
    div_pos hsum_pos hwq
  refine ⟨hL, ⟨_, hG, hgpos⟩, ?_⟩
  rw [rsiAt_eq c w i _ 0 hG hL, if_neg (by simp), if_pos (ne_of_gt hgpos)]

/-- C8 witness: on the series 1, 2, 3 with window 2 the loss average at
the last index is 0 and the RSI saturates to 100. -/
theorem rsi_strictly_increasing_saturates_witness :
    avgLoss cinc3 2 2 = some 0 ∧ rsiAt cinc3 2 2 = RVal.val 100 := by
  have h := rsi_strictly_increasing_saturates cinc3 2 (by norm_num)
    (by
      intro i hi
      simp only [cinc3, List.length_cons, List.length_nil] at hi
      have hi2 : i = 0 ∨ i = 1 := by omega
      rcases hi2 with rfl | rfl <;> norm_num [cinc3, List.getD])
    2 (by norm_num [avgGain, cinc3])
  exact ⟨h.1, h.2.2⟩

lemma collectStrongBuys_foldl (l : List EvalResult) (acc : List Row) :
    l.foldl
      (fun acc r =>
        if startsWithModel r.verdict skippedTag then acc
        else if r.verdict = strongBuyVerdict then acc ++ [mkRow r]
        else acc) acc =
    acc ++ (l.filter fun r => r.verdict = strongBuyVerdict).map mkRow := by
  induction l generalizing acc with
  | nil => simp
  | cons r l ih =>
    rw [List.foldl_cons, ih]
    by_cases hv : r.verdict = strongBuyVerdict
    · have hskip : startsWithModel strongBuyVerdict skippedTag = false := by decide
      simp [hv, hskip, List.filter_cons]
    · by_cases hskip : startsWithModel r.verdict skippedTag
      · simp [hskip, hv, List.filter_cons]
      · simp [hskip, hv, List.filter_cons]

/-- C9: the collected strong-buy rows are exactly the results with the
"Strong Buy" verdict, projected to (symbol, price, RSI), in evaluation
order, and the exported CSV is the header line `Symbol,Price,RSI`
followed by exactly one data row per strong-buy result in that order,
with no index column. -/
theorem csv_export_strong_buys (results : List EvalResult)
    (hne : collectStrongBuys results ≠ []) :
    collectStrongBuys results =
      (results.filter fun r => r.verdict = strongBuyVerdict).map mkRow ∧
    toCsv (collectStrongBuys results) =
      csvHeader ++ String.join
        (((results.filter fun r => r.verdict = strongBuyVerdict).map mkRow).map
          rowLine) := by
  have hc : collectStrongBuys results =
      (results.filter fun r => r.verdict = strongBuyVerdict).map mkRow := by
    have h := collectStrongBuys_foldl results []
    simpa [collectStrongBuys] using h
  exact ⟨hc, by rw [toCsv, hc]⟩

/-- C9 witness: on a sample batch with two strong buys, one skip and one
non-buy, the CSV is the header plus the two strong-buy rows in order. -/
theorem csv_export_strong_buys_witness :
    toCsv (collectStrongBuys resultsSample) =
      csvHeader ++ String.join
        (((resultsSample.filter fun r => r.verdict = strongBuyVerdict).map
          mkRow).map rowLine) :=
  (csv_export_strong_buys resultsSample
    (by
      have h1 : startsWithModel strongBuyVerdict skippedTag = false := by decide
      have h2 : startsWithModel insufficientDataVerdict skippedTag = true := by
        decide
      have h3 : startsWithModel notStrongBuyVerdict skippedTag = false := by
        decide
      have h4 : notStrongBuyVerdict ≠ strongBuyVerdict := by decide
      simp [collectStrongBuys, resultsSample, h1, h2, h3, h4])).2

/-- C10: `evaluate_stock` compares the unrounded RSI with the threshold
and rounds only for the returned result: on a concrete 15-bar series the
unrounded last RSI is 50.001, strictly above the threshold 50, so the
verdict is "Strong Buy", while the RSI in the returned result is rounded
to exactly 50, the threshold itself. -/
theorem evaluate_compares_unrounded_then_rounds :
    rsiAt (c10bars.map Bar.close) 14 (c10bars.length - 1) =
      RVal.val (50001 / 1000) ∧
    (50 : ℚ) < 50001 / 1000 ∧
    round2 (50001 / 1000) = 50 ∧
    (evaluate_stock "AAA" 50 (Except.ok c10bars)).verdict = strongBuyVerdict ∧
    (evaluate_stock "AAA" 50 (Except.ok c10bars)).rsi = some (RVal.val 50) := by
  have hr : rsiAt (c10bars.map Bar.close) 14 (c10bars.length - 1) =
      RVal.val (50001 / 1000) := by
    norm_num [c10bars, rsiAt, avgGain, avgLoss, gainAt, lossAt,
      Finset.sum_range_succ, List.getD]
  have hround : round2 (50001 / 1000) = 50 := by
    norm_num [round2, Int.floor_eq_iff]
  have hp : (c10bars.map Bar.close).getD (c10bars.length - 2) 0 <
      (c10bars.map Bar.close).getD (c10bars.length - 1) 0 := by
    norm_num [c10bars, List.getD]
  have hv : (c10bars.map Bar.volume).getD (c10bars.length - 2) 0 <
      (c10bars.map Bar.volume).getD (c10bars.length - 1) 0 := by
    norm_num [c10bars, List.getD]
  have he := evaluate_ok_of_min_bars "AAA" 50 c10bars (by decide)
  have hb1 : (RVal.val ((50001 : ℚ) / 1000)).gtQ 50 = true := by
    simp only [RVal.gtQ, decide_eq_true_eq]
    norm_num
  have hb2 : decide ((c10bars.map Bar.close).getD (c10bars.length - 2) 0 <
      (c10bars.map Bar.close).getD (c10bars.length - 1) 0) = true := by
    rw [decide_eq_true_eq]
    exact hp
  have hb3 : decide ((c10bars.map Bar.volume).getD (c10bars.length - 2) 0 <
      (c10bars.map Bar.volume).getD (c10bars.length - 1) 0) = true := by
    rw [decide_eq_true_eq]
    exact hv
  refine ⟨hr, by norm_num, hround, ?_, ?_⟩
  · rw [he]
    dsimp only
    rw [hr, hb1, hb2, hb3]
    rfl
  · rw [he]
    dsimp only
    rw [hr]
    simp only [round2R, hround]
